import Mathlib

/-!
Shallow embedding of the message-scheduling core of the repository
(whatsapp-bridge/scheduler: scheduler_db.go, the scheduler engine file and
the HTTP handlers file).  The sqlite table `scheduled_messages` is modelled
as a list of rows; timestamps are modelled as integers; the two external
collaborators (the message sender and the whatsapp message database that
answers "has this recipient responded" / "last activity time" queries) are
modelled as function parameters.
-/

namespace WhatsappScheduler

/-- A row of the `scheduled_messages` table — struct `ScheduledMessage` in
scheduler_db.go.  `Status` is one of the strings "pending", "sent", "paused",
"cancelled", "failed"; `SentAt` and `ErrorMessage` model the nullable
`sent_at` / `error_message` columns. -/
structure ScheduledMessage where
  ID : String
  Recipient : String
  Message : String
  ScheduledTime : Int
  CreatedAt : Int
  LastMessageAt : Int
  CheckForResponse : Bool
  Status : String
  SentAt : Option Int
  ErrorMessage : Option String
deriving DecidableEq

/-- The scheduler database: the list of rows of `scheduled_messages`. -/
abbrev Store := List ScheduledMessage

/-- InsertScheduledMessage (scheduler_db.go): INSERT a new row. -/
def InsertScheduledMessage (store : Store) (msg : ScheduledMessage) : Store :=
  store ++ [msg]

/-- UpdateMessageStatus (scheduler_db.go): UPDATE scheduled_messages SET
status = ?, sent_at = ?, error_message = ? WHERE id = ?.  Every row whose id
matches has exactly those three columns overwritten. -/
def UpdateMessageStatus (store : Store) (id status : String) (sentAt : Option Int)
    (errorMsg : Option String) : Store :=
  store.map fun m =>
    if m.ID = id then { m with Status := status, SentAt := sentAt, ErrorMessage := errorMsg }
    else m

/-- GetPendingMessages (scheduler_db.go): SELECT rows WHERE status = 'pending'
AND scheduled_time <= now ORDER BY scheduled_time ASC. -/
def GetPendingMessages (store : Store) (now : Int) : Store :=
  (store.filter fun m => m.Status == "pending" && decide (m.ScheduledTime ≤ now)).mergeSort
    fun a b => decide (a.ScheduledTime ≤ b.ScheduledTime)

/-- GetAllScheduledMessages (scheduler_db.go): SELECT with the optional
equality filters on status and recipient (an empty string means no filter),
ORDER BY scheduled_time DESC. -/
def GetAllScheduledMessages (store : Store) (status recipient : String) : Store :=
  (store.filter fun m =>
      (status == "" || m.Status == status) && (recipient == "" || m.Recipient == recipient)).mergeSort
    fun a b => decide (b.ScheduledTime ≤ a.ScheduledTime)

/-- GetScheduledMessage (scheduler_db.go): SELECT a row by id; the query
returns the (unique, id being the primary key) matching row or ErrNoRows. -/
def GetScheduledMessage (store : Store) (id : String) : Option ScheduledMessage :=
  store.find? fun m => m.ID == id

/-- The hand-rolled containsMiddle helper of the scheduler engine file:
scans every start index i with 0 <= i <= len(s) - len(substr) and compares
the slice s[i : i+len(substr)] with substr.  (In Go the loop bound is a
possibly negative machine integer; when len(substr) > len(s) the loop body
never runs, which the outer guard here mirrors.) -/
def containsMiddle (s substr : List Char) : Bool :=
  if substr.length ≤ s.length then
    (List.range (s.length - substr.length + 1)).any fun i =>
      decide ((s.drop i).take substr.length = substr)
  else false

/-- The hand-rolled contains helper of the scheduler engine file, byte for
byte: non-emptiness guards (stated twice in the source), then equality, or —
when s is strictly longer — a prefix slice test, a suffix slice test, or the
middle scan. -/
def contains (s substr : List Char) : Bool :=
  decide (0 < s.length) && decide (0 < substr.length) && !(s == ([] : List Char)) &&
    !(substr == ([] : List Char)) &&
    ((s == substr) ||
      (decide (substr.length < s.length) &&
        ((s.take substr.length == substr) ||
          ((s.drop (s.length - substr.length)) == substr) || containsMiddle s substr)))

/-- The contains helper applied to the character sequences of two strings. -/
def containsStr (s substr : String) : Bool :=
  contains s.data substr.data

/-- The recipient-normalization step shared by hasRecipientResponded and
ScheduleMessage: append the default domain suffix when the recipient does
not already contain an "@". -/
def normalizeJID (recipient : String) : String :=
  if containsStr recipient "@" then recipient else recipient ++ "@s.whatsapp.net"

/-- The external whatsapp-message database reduced to the activity oracle of
the spec: given a (normalized) recipient and a time, report whether that
recipient has sent anything after that time, or fail with an error text. -/
abbrev ActivityOracle := String → Int → Except String Bool

/-- The external last-activity query: the timestamp of the last message
received from a recipient (the no-rows case is folded into a result). -/
abbrev LastActivityOracle := String → Except String Int

/-- The external message sender: recipient, message, media path to
(success, error text) — the MessageSender function type of the engine. -/
abbrev Sender := String → String → String → Bool × String

/-- One invocation of the external sender, recorded for analysis: which item
it was for and the arguments passed. -/
structure SendEvent where
  id : String
  recipient : String
  message : String
  mediaPath : String
deriving DecidableEq

/-- hasRecipientResponded (scheduler engine file): normalize the recipient to
JID form, then ask the external store whether any message from that sender
arrived after the given time. -/
def hasRecipientResponded (oracle : ActivityOracle) (recipient : String) (afterTime : Int) :
    Except String Bool :=
  oracle (normalizeJID recipient) afterTime

/-- The send-and-record tail of processSingleMessage: invoke the sender with
an empty media path; on failure mark the row failed with the sender's error
text, on success mark it sent with the current timestamp. -/
def sendNow (sender : Sender) (now : Int) (store : Store) (msg : ScheduledMessage) :
    Store × List SendEvent :=
  let r := sender msg.Recipient msg.Message ""
  if r.1 then
    (UpdateMessageStatus store msg.ID "sent" (some now) none,
      [⟨msg.ID, msg.Recipient, msg.Message, ""⟩])
  else
    (UpdateMessageStatus store msg.ID "failed" none (some r.2),
      [⟨msg.ID, msg.Recipient, msg.Message, ""⟩])

/-- processSingleMessage (scheduler engine file): when the response-check
flag is set, re-check the oracle — an oracle failure marks the row failed
with the wrapped error text, a positive answer pauses the row; otherwise
send. -/
def processSingleMessage (sender : Sender) (oracle : ActivityOracle) (now : Int)
    (store : Store) (msg : ScheduledMessage) : Store × List SendEvent :=
  if msg.CheckForResponse then
    match hasRecipientResponded oracle msg.Recipient msg.CreatedAt with
    | Except.error e =>
        (UpdateMessageStatus store msg.ID "failed" none
          (some ("Error checking recipient response: " ++ e)), [])
    | Except.ok true =>
        (UpdateMessageStatus store msg.ID "paused" none
          (some "Recipient responded before scheduled time"), [])
    | Except.ok false => sendNow sender now store msg
  else sendNow sender now store msg

/-- checkAndPauseFutureMessages (scheduler engine file): snapshot every
pending row, and for each snapshot row with the response-check flag set ask
the oracle; an oracle failure is logged and skipped, a positive answer
pauses the row.  The now argument is taken but, as in the source, unused. -/
def checkAndPauseFutureMessages (oracle : ActivityOracle) (store : Store) (_now : Int) :
    Store :=
  let allPending := GetAllScheduledMessages store "pending" ""
  allPending.foldl
    (fun st msg =>
      if !msg.CheckForResponse then st
      else
        match hasRecipientResponded oracle msg.Recipient msg.CreatedAt with
        | Except.error _ => st
        | Except.ok hasNew =>
          if hasNew then
            UpdateMessageStatus st msg.ID "paused" none
              (some "Recipient responded before scheduled time")
          else st)
    store

/-- processScheduledMessages (scheduler engine file) — one tick: the
pre-pause sweep, then fetch the due pending rows and process them in order,
accumulating the sender invocations. -/
def processScheduledMessages (sender : Sender) (oracle : ActivityOracle) (now : Int)
    (store : Store) : Store × List SendEvent :=
  let store1 := checkAndPauseFutureMessages oracle store now
  let messages := GetPendingMessages store1 now
  messages.foldl
    (fun acc msg =>
      let r := processSingleMessage sender oracle now acc.1 msg
      (r.1, acc.2 ++ r.2))
    (store1, [])

/-- ScheduleMessage (scheduler engine file): reject a scheduled time strictly
before now (Go: scheduledTime.Before(time.Now())), normalize the recipient,
best-effort query the last activity time (a failure falls back to the zero
time), then insert a fresh pending row and return it. -/
def ScheduleMessage (lastOracle : LastActivityOracle) (newID : String) (now : Int)
    (recipient message : String) (scheduledTime : Int) (checkForResponse : Bool)
    (store : Store) : Except String (Store × ScheduledMessage) :=
  if scheduledTime < now then Except.error "scheduled time must be in the future"
  else
    let recipientJID := normalizeJID recipient
    let lastMessageAt :=
      match lastOracle recipientJID with
      | Except.ok t => t
      | Except.error _ => 0
    let scheduledMsg : ScheduledMessage :=
      { ID := newID, Recipient := recipientJID, Message := message,
        ScheduledTime := scheduledTime, CreatedAt := now, LastMessageAt := lastMessageAt,
        CheckForResponse := checkForResponse, Status := "pending",
        SentAt := none, ErrorMessage := none }
    Except.ok (InsertScheduledMessage store scheduledMsg, scheduledMsg)

/-- Caller-facing failure categories of the HTTP control surface. -/
inductive ApiError
  | notFound
  | invalidTransition
  | invalidAction
deriving DecidableEq

/-- The DELETE branch of the /api/scheduled/{id} handler: look the row up,
allow cancellation only from pending or paused, and set the row cancelled
with the fixed reason. -/
def cancelScheduledMessage (store : Store) (id : String) : Except ApiError Store :=
  match GetScheduledMessage store id with
  | none => Except.error ApiError.notFound
  | some msg =>
    if msg.Status != "pending" && msg.Status != "paused" then
      Except.error ApiError.invalidTransition
    else Except.ok (UpdateMessageStatus store id "cancelled" none (some "Cancelled by user"))

/-- The PATCH branch of the /api/scheduled/{id} handler: look the row up,
then act on the requested action — pause only from pending, resume only from
paused (resume clears the reason), any other action is rejected. -/
def patchScheduledMessage (store : Store) (id action : String) : Except ApiError Store :=
  match GetScheduledMessage store id with
  | none => Except.error ApiError.notFound
  | some msg =>
    if action == "pause" then
      if msg.Status != "pending" then Except.error ApiError.invalidTransition
      else Except.ok (UpdateMessageStatus store id "paused" none (some "Paused by user"))
    else if action == "resume" then
      if msg.Status != "paused" then Except.error ApiError.invalidTransition
      else Except.ok (UpdateMessageStatus store id "pending" none none)
    else Except.error ApiError.invalidAction

/-! Analysis helpers: the status/sent-at/error triple each code path writes,
and the per-row normal form of the engine's two passes. -/

/-- Overwrite exactly the three columns UpdateMessageStatus writes. -/
def setStatusFields (m : ScheduledMessage) (status : String) (sentAt : Option Int)
    (errorMsg : Option String) : ScheduledMessage :=
  { m with Status := status, SentAt := sentAt, ErrorMessage := errorMsg }

/-- The (status, sent_at, error_message) triple sendNow writes for a row. -/
def sendTriple (sender : Sender) (now : Int) (msg : ScheduledMessage) :
    String × Option Int × Option String :=
  let r := sender msg.Recipient msg.Message ""
  if r.1 then ("sent", some now, none) else ("failed", none, some r.2)

/-- The (status, sent_at, error_message) triple processSingleMessage writes
for a row. -/
def psmTriple (sender : Sender) (oracle : ActivityOracle) (now : Int)
    (msg : ScheduledMessage) : String × Option Int × Option String :=
  if msg.CheckForResponse then
    match hasRecipientResponded oracle msg.Recipient msg.CreatedAt with
    | Except.error e => ("failed", none, some ("Error checking recipient response: " ++ e))
    | Except.ok true => ("paused", none, some "Recipient responded before scheduled time")
    | Except.ok false => sendTriple sender now msg
  else sendTriple sender now msg

/-- The sender invocations processSingleMessage performs for a row. -/
def psmEvents (_sender : Sender) (oracle : ActivityOracle) (msg : ScheduledMessage) :
    List SendEvent :=
  if msg.CheckForResponse then
    match hasRecipientResponded oracle msg.Recipient msg.CreatedAt with
    | Except.error _ => []
    | Except.ok true => []
    | Except.ok false => [⟨msg.ID, msg.Recipient, msg.Message, ""⟩]
  else [⟨msg.ID, msg.Recipient, msg.Message, ""⟩]

/-- What one pre-pause sweep step, driven by snapshot row msg, does to a
stored row x. -/
def sweepApply (oracle : ActivityOracle) (msg x : ScheduledMessage) : ScheduledMessage :=
  if msg.CheckForResponse then
    match hasRecipientResponded oracle msg.Recipient msg.CreatedAt with
    | Except.error _ => x
    | Except.ok hasNew =>
      if hasNew then
        if x.ID = msg.ID then
          setStatusFields x "paused" none (some "Recipient responded before scheduled time")
        else x
      else x
  else x

/-- What the whole pre-pause sweep, driven by snapshot list L, does to a
stored row x. -/
def sweepFold (oracle : ActivityOracle) (L : List ScheduledMessage) (x : ScheduledMessage) :
    ScheduledMessage :=
  L.foldl (fun y m => sweepApply oracle m y) x

/-- What one due-item delivery step, driven by due row msg, does to a stored
row x. -/
def deliverApply (sender : Sender) (oracle : ActivityOracle) (now : Int)
    (msg x : ScheduledMessage) : ScheduledMessage :=
  if x.ID = msg.ID then
    setStatusFields x (psmTriple sender oracle now msg).1 (psmTriple sender oracle now msg).2.1
      (psmTriple sender oracle now msg).2.2
  else x

/-- What the whole due-item delivery pass, driven by due list L, does to a
stored row x. -/
def deliverFold (sender : Sender) (oracle : ActivityOracle) (now : Int)
    (L : List ScheduledMessage) (x : ScheduledMessage) : ScheduledMessage :=
  L.foldl (fun y m => deliverApply sender oracle now m y) x

theorem updateStatus_getElem (store : Store) (id status : String) (sentAt : Option Int)
    (errorMsg : Option String) (i : Nat) :
    (UpdateMessageStatus store id status sentAt errorMsg)[i]? =
      (store[i]?).map fun m => if m.ID = id then setStatusFields m status sentAt errorMsg else m := by
  simp [UpdateMessageStatus, setStatusFields, List.getElem?_map]

theorem updateStatus_length (store : Store) (id status : String) (sentAt : Option Int)
    (errorMsg : Option String) :
    (UpdateMessageStatus store id status sentAt errorMsg).length = store.length := by
  simp [UpdateMessageStatus]

theorem processSingleMessage_eq (sender : Sender) (oracle : ActivityOracle) (now : Int)
    (store : Store) (msg : ScheduledMessage) :
    processSingleMessage sender oracle now store msg =
      (UpdateMessageStatus store msg.ID (psmTriple sender oracle now msg).1
        (psmTriple sender oracle now msg).2.1 (psmTriple sender oracle now msg).2.2,
       psmEvents sender oracle msg) := by
  simp only [processSingleMessage, psmTriple, psmEvents, sendNow, sendTriple]
  cases hc : msg.CheckForResponse
  · cases hs : (sender msg.Recipient msg.Message "").1 <;> simp [hs]
  · cases hr : hasRecipientResponded oracle msg.Recipient msg.CreatedAt with
    | error e => simp
    | ok b =>
      cases b
      · cases hs : (sender msg.Recipient msg.Message "").1 <;> simp [hs]
      · simp

theorem foldl_map_comm {α β : Type _} (h : β → α → α) :
    ∀ (L : List β) (st : List α),
      L.foldl (fun s m => s.map (h m)) st = st.map fun x => L.foldl (fun y m => h m y) x
  | [], st => by simp
  | m :: L, st => by
    simp only [List.foldl_cons]
    rw [foldl_map_comm h L (st.map (h m)), List.map_map]
    rfl

theorem checkAndPause_eq_map (oracle : ActivityOracle) (store : Store) (now : Int) :
    checkAndPauseFutureMessages oracle store now =
      store.map (sweepFold oracle (GetAllScheduledMessages store "pending" "")) := by
  unfold checkAndPauseFutureMessages sweepFold
  have hfun :
      (fun (st : Store) (msg : ScheduledMessage) =>
        if !msg.CheckForResponse then st
        else
          match hasRecipientResponded oracle msg.Recipient msg.CreatedAt with
          | Except.error _ => st
          | Except.ok hasNew =>
            if hasNew then
              UpdateMessageStatus st msg.ID "paused" none
                (some "Recipient responded before scheduled time")
            else st) =
      fun st msg => st.map (sweepApply oracle msg) := by
    funext st msg
    cases hc : msg.CheckForResponse
    · have h1 : sweepApply oracle msg = fun x => x := funext fun x => by simp [sweepApply, hc]
      rw [h1, List.map_id']
      simp [hc]
    · cases hr : hasRecipientResponded oracle msg.Recipient msg.CreatedAt with
      | error e =>
        have h1 : sweepApply oracle msg = fun x => x :=
          funext fun x => by simp [sweepApply, hc, hr]
        rw [h1, List.map_id']
        simp [hc, hr]
      | ok b =>
        cases b
        · have h1 : sweepApply oracle msg = fun x => x :=
            funext fun x => by simp [sweepApply, hc, hr]
          rw [h1, List.map_id']
          simp [hc, hr]
        · have h1 : sweepApply oracle msg = fun x =>
              if x.ID = msg.ID then
                setStatusFields x "paused" none (some "Recipient responded before scheduled time")
              else x :=
            funext fun x => by simp [sweepApply, hc, hr]
          rw [h1]
          simp [hc, hr, UpdateMessageStatus, setStatusFields]
  rw [hfun, foldl_map_comm]

theorem tickFold_eq (sender : Sender) (oracle : ActivityOracle) (now : Int) :
    ∀ (msgs : List ScheduledMessage) (st : Store) (evs : List SendEvent),
      msgs.foldl
        (fun acc msg =>
          let r := processSingleMessage sender oracle now acc.1 msg
          (r.1, acc.2 ++ r.2)) (st, evs) =
      (st.map (deliverFold sender oracle now msgs),
        evs ++ msgs.flatMap (psmEvents sender oracle))
  | [], st, evs => by
    have h1 : st.map (deliverFold sender oracle now []) = st :=
      List.map_id'' (fun x => rfl) st
    simp [h1]
  | m :: msgs, st, evs => by
    simp only [List.foldl_cons]
    rw [processSingleMessage_eq]
    have hstep : UpdateMessageStatus st m.ID (psmTriple sender oracle now m).1
        (psmTriple sender oracle now m).2.1 (psmTriple sender oracle now m).2.2 =
        st.map (deliverApply sender oracle now m) := by
      simp [UpdateMessageStatus, deliverApply, setStatusFields]
    rw [hstep, tickFold_eq sender oracle now msgs, List.map_map]
    simp [deliverFold, List.foldl_cons, Function.comp]

theorem processScheduledMessages_eq (sender : Sender) (oracle : ActivityOracle) (now : Int)
    (store : Store) :
    processScheduledMessages sender oracle now store =
      ((checkAndPauseFutureMessages oracle store now).map
          (deliverFold sender oracle now
            (GetPendingMessages (checkAndPauseFutureMessages oracle store now) now)),
        (GetPendingMessages (checkAndPauseFutureMessages oracle store now) now).flatMap
          (psmEvents sender oracle)) := by
  unfold processScheduledMessages
  rw [tickFold_eq]
  simp

/-- The paused row the pre-pause sweep writes. -/
def pausedOf (x : ScheduledMessage) : ScheduledMessage :=
  setStatusFields x "paused" none (some "Recipient responded before scheduled time")

/-- Distinctness of the id column across the store — the PRIMARY KEY
constraint of the scheduled_messages table. -/
abbrev idsNodup (store : Store) : Prop := (store.map fun m => m.ID).Nodup

theorem eq_of_mem_of_id_eq {store : Store} (h : idsNodup store) {x y : ScheduledMessage}
    (hx : x ∈ store) (hy : y ∈ store) (hid : x.ID = y.ID) : x = y :=
  List.inj_on_of_nodup_map h hx hy hid

theorem mem_getAllPending (store : Store) (m : ScheduledMessage) :
    m ∈ GetAllScheduledMessages store "pending" "" ↔ m ∈ store ∧ m.Status = "pending" := by
  simp [GetAllScheduledMessages, List.mem_filter]

theorem mem_getPendingMessages (store : Store) (now : Int) (m : ScheduledMessage) :
    m ∈ GetPendingMessages store now ↔
      m ∈ store ∧ m.Status = "pending" ∧ m.ScheduledTime ≤ now := by
  simp [GetPendingMessages, List.mem_filter, and_assoc]

theorem idsNodup_getPendingMessages (store : Store) (now : Int) (h : idsNodup store) :
    idsNodup (GetPendingMessages store now) := by
  have hperm :=
    List.mergeSort_perm
      (store.filter fun m => m.Status == "pending" && decide (m.ScheduledTime ≤ now))
      fun a b => decide (a.ScheduledTime ≤ b.ScheduledTime)
  have hsub : List.Sublist
      ((store.filter fun m => m.Status == "pending" && decide (m.ScheduledTime ≤ now)).map
        fun m => m.ID)
      (store.map fun m => m.ID) :=
    (List.filter_sublist store).map fun m => m.ID
  exact ((hperm.map fun m => m.ID).nodup_iff).mpr (List.Nodup.sublist hsub h)

theorem sweepApply_cases (oracle : ActivityOracle) (msg x : ScheduledMessage) :
    sweepApply oracle msg x = x ∨
      (msg.CheckForResponse = true ∧
        hasRecipientResponded oracle msg.Recipient msg.CreatedAt = Except.ok true ∧
        x.ID = msg.ID ∧ sweepApply oracle msg x = pausedOf x) := by
  cases hc : msg.CheckForResponse
  · left
    simp [sweepApply, hc]
  · cases hr : hasRecipientResponded oracle msg.Recipient msg.CreatedAt with
    | error e =>
      left
      simp [sweepApply, hc, hr]
    | ok b =>
      cases b
      · left
        simp [sweepApply, hc, hr]
      · by_cases hid : x.ID = msg.ID
        · right
          exact ⟨rfl, rfl, hid, by simp [sweepApply, hc, hr, hid, pausedOf]⟩
        · left
          simp [sweepApply, hc, hr, hid]

theorem sweepApply_fire (oracle : ActivityOracle) (msg x : ScheduledMessage)
    (hc : msg.CheckForResponse = true)
    (hr : hasRecipientResponded oracle msg.Recipient msg.CreatedAt = Except.ok true)
    (hid : x.ID = msg.ID) :
    sweepApply oracle msg x = pausedOf x := by
  simp [sweepApply, hc, hr, hid, pausedOf]

theorem setStatusFields_idem (x : ScheduledMessage) (s : String) (a : Option Int)
    (e : Option String) :
    setStatusFields (setStatusFields x s a e) s a e = setStatusFields x s a e := by
  simp [setStatusFields]

theorem setStatusFields_comp (x : ScheduledMessage) (s s2 : String) (a a2 : Option Int)
    (e e2 : Option String) :
    setStatusFields (setStatusFields x s a e) s2 a2 e2 = setStatusFields x s2 a2 e2 := by
  simp [setStatusFields]

theorem pausedOf_ID (x : ScheduledMessage) : (pausedOf x).ID = x.ID := by
  simp [pausedOf, setStatusFields]

theorem sweepFold_x_cases (oracle : ActivityOracle) :
    ∀ (L : List ScheduledMessage) (x y : ScheduledMessage),
      (y = x ∨ y = pausedOf x) →
      (sweepFold oracle L y = x ∨ sweepFold oracle L y = pausedOf x)
  | [], x, y, hy => by simpa [sweepFold] using hy
  | m :: L, x, y, hy => by
    rw [show sweepFold oracle (m :: L) y = sweepFold oracle L (sweepApply oracle m y) from rfl]
    rcases sweepApply_cases oracle m y with h | ⟨_, _, _, h⟩
    · exact sweepFold_x_cases oracle L x (sweepApply oracle m y) (by rw [h]; exact hy)
    · refine sweepFold_x_cases oracle L x (sweepApply oracle m y) (Or.inr ?_)
      rcases hy with rfl | rfl
      · exact h
      · rw [h]
        simp [pausedOf, setStatusFields_idem]

theorem sweepFold_skip (oracle : ActivityOracle) (store : Store) (hnd : idsNodup store)
    (x : ScheduledMessage) (hx : x ∈ store)
    (hskip : x.Status ≠ "pending" ∨
      ¬(x.CheckForResponse = true ∧
        hasRecipientResponded oracle x.Recipient x.CreatedAt = Except.ok true)) :
    ∀ (L : List ScheduledMessage), (∀ m ∈ L, m ∈ store ∧ m.Status = "pending") →
      sweepFold oracle L x = x
  | [], _ => rfl
  | m :: L, hL => by
    rw [show sweepFold oracle (m :: L) x = sweepFold oracle L (sweepApply oracle m x) from rfl]
    have hstep : sweepApply oracle m x = x := by
      rcases sweepApply_cases oracle m x with h | ⟨hc, hr, hid, _⟩
      · exact h
      · have hm := hL m (by simp)
        have hxm : x = m := eq_of_mem_of_id_eq hnd hx hm.1 hid
        rcases hskip with hs | hs
        · exact absurd (hxm ▸ hm.2) hs
        · exact absurd ⟨hxm ▸ hc, hxm ▸ hr⟩ hs
    rw [hstep]
    exact sweepFold_skip oracle store hnd x hx hskip L fun m hm => hL m (by simp [hm])

theorem sweepFold_pausedOf_fixed (oracle : ActivityOracle) :
    ∀ (L : List ScheduledMessage) (x : ScheduledMessage),
      sweepFold oracle L (pausedOf x) = pausedOf x
  | [], _ => rfl
  | m :: L, x => by
    rw [show sweepFold oracle (m :: L) (pausedOf x) =
      sweepFold oracle L (sweepApply oracle m (pausedOf x)) from rfl]
    rcases sweepApply_cases oracle m (pausedOf x) with h | ⟨_, _, _, h⟩
    · rw [h]
      exact sweepFold_pausedOf_fixed oracle L x
    · rw [h, show pausedOf (pausedOf x) = pausedOf x by simp [pausedOf, setStatusFields]]
      exact sweepFold_pausedOf_fixed oracle L x

theorem sweepFold_pauses (oracle : ActivityOracle) (L : List ScheduledMessage)
    (x : ScheduledMessage) (hxL : x ∈ L)
    (hc : x.CheckForResponse = true)
    (hr : hasRecipientResponded oracle x.Recipient x.CreatedAt = Except.ok true) :
    sweepFold oracle L x = pausedOf x := by
  obtain ⟨L1, L2, rfl⟩ := List.append_of_mem hxL
  have h1 : sweepFold oracle (L1 ++ x :: L2) x =
      sweepFold oracle L2 (sweepApply oracle x (sweepFold oracle L1 x)) := by
    simp [sweepFold, List.foldl_append]
  rw [h1]
  have h2 : sweepApply oracle x (sweepFold oracle L1 x) = pausedOf x := by
    rcases sweepFold_x_cases oracle L1 x x (Or.inl rfl) with h | h
    · rw [h]
      exact sweepApply_fire oracle x x hc hr rfl
    · rw [h, sweepApply_fire oracle x (pausedOf x) hc hr (pausedOf_ID x)]
      simp [pausedOf, setStatusFields]
  rw [h2]
  exact sweepFold_pausedOf_fixed oracle L2 x

theorem setStatusFields_ID (x : ScheduledMessage) (s : String) (a : Option Int)
    (e : Option String) : (setStatusFields x s a e).ID = x.ID := by
  simp [setStatusFields]

/-- The statuses the due-item delivery step may write. -/
def statusOKTriple (t : String × Option Int × Option String) : Prop :=
  t.1 = "sent" ∨ t.1 = "paused" ∨ t.1 = "failed"

theorem psmTriple_statusOK (sender : Sender) (oracle : ActivityOracle) (now : Int)
    (msg : ScheduledMessage) : statusOKTriple (psmTriple sender oracle now msg) := by
  unfold statusOKTriple psmTriple sendTriple
  cases hc : msg.CheckForResponse
  · cases hs : (sender msg.Recipient msg.Message "").1 <;> simp [hs]
  · cases hr : hasRecipientResponded oracle msg.Recipient msg.CreatedAt with
    | error e => simp
    | ok b =>
      cases b
      · cases hs : (sender msg.Recipient msg.Message "").1 <;> simp [hs]
      · simp

theorem deliverApply_of_ne (sender : Sender) (oracle : ActivityOracle) (now : Int)
    (msg x : ScheduledMessage) (hid : x.ID ≠ msg.ID) :
    deliverApply sender oracle now msg x = x := by
  simp [deliverApply, hid]

theorem deliverApply_of_eq (sender : Sender) (oracle : ActivityOracle) (now : Int)
    (msg x : ScheduledMessage) (hid : x.ID = msg.ID) :
    deliverApply sender oracle now msg x =
      setStatusFields x (psmTriple sender oracle now msg).1
        (psmTriple sender oracle now msg).2.1 (psmTriple sender oracle now msg).2.2 := by
  simp [deliverApply, hid]

theorem deliverFold_skip (sender : Sender) (oracle : ActivityOracle) (now : Int) :
    ∀ (L : List ScheduledMessage) (x : ScheduledMessage),
      (∀ m ∈ L, m.ID ≠ x.ID) → deliverFold sender oracle now L x = x
  | [], _, _ => rfl
  | m :: L, x, h => by
    rw [show deliverFold sender oracle now (m :: L) x =
      deliverFold sender oracle now L (deliverApply sender oracle now m x) from rfl]
    rw [deliverApply_of_ne sender oracle now m x fun he => h m (by simp) he.symm]
    exact deliverFold_skip sender oracle now L x fun m2 hm2 => h m2 (by simp [hm2])

theorem deliverFold_unique (sender : Sender) (oracle : ActivityOracle) (now : Int)
    (L1 L2 : List ScheduledMessage) (m x : ScheduledMessage) (hid : x.ID = m.ID)
    (h1 : ∀ m2 ∈ L1, m2.ID ≠ m.ID) (h2 : ∀ m2 ∈ L2, m2.ID ≠ m.ID) :
    deliverFold sender oracle now (L1 ++ m :: L2) x =
      setStatusFields x (psmTriple sender oracle now m).1
        (psmTriple sender oracle now m).2.1 (psmTriple sender oracle now m).2.2 := by
  have hstep : deliverFold sender oracle now (L1 ++ m :: L2) x =
      deliverFold sender oracle now L2
        (deliverApply sender oracle now m (deliverFold sender oracle now L1 x)) := by
    simp [deliverFold, List.foldl_append]
  rw [hstep, deliverFold_skip sender oracle now L1 x
      (fun m2 hm2 he => h1 m2 hm2 (he.trans hid)),
    deliverApply_of_eq sender oracle now m x hid]
  exact deliverFold_skip sender oracle now L2 _
    fun m2 hm2 he => h2 m2 hm2 (he.trans ((setStatusFields_ID x _ _ _).symm ▸ hid))

theorem deliverFold_inv (sender : Sender) (oracle : ActivityOracle) (now : Int)
    (store1 : Store) (hnd : idsNodup store1) (x : ScheduledMessage) (hx : x ∈ store1) :
    ∀ (L : List ScheduledMessage), (∀ m ∈ L, m ∈ store1 ∧ m.Status = "pending") →
    ∀ y, (y = x ∨ (x.Status = "pending" ∧ ∃ t, statusOKTriple t ∧
        y = setStatusFields x t.1 t.2.1 t.2.2)) →
      (deliverFold sender oracle now L y = x ∨
        (x.Status = "pending" ∧ ∃ t, statusOKTriple t ∧
          deliverFold sender oracle now L y = setStatusFields x t.1 t.2.1 t.2.2))
  | [], _, y, hy => hy
  | m :: L, hL, y, hy => by
    rw [show deliverFold sender oracle now (m :: L) y =
      deliverFold sender oracle now L (deliverApply sender oracle now m y) from rfl]
    have hyid : y.ID = x.ID := by
      rcases hy with rfl | ⟨_, t, _, rfl⟩
      · rfl
      · exact setStatusFields_ID x t.1 t.2.1 t.2.2
    by_cases hym : y.ID = m.ID
    · have hm := hL m (by simp)
      have hxm : x = m := eq_of_mem_of_id_eq hnd hx hm.1 (hyid.symm.trans hym)
      have hp : x.Status = "pending" := hxm ▸ hm.2
      refine deliverFold_inv sender oracle now store1 hnd x hx L
        (fun m2 hm2 => hL m2 (by simp [hm2])) _ (Or.inr ⟨hp, psmTriple sender oracle now m,
          psmTriple_statusOK sender oracle now m, ?_⟩)
      rw [deliverApply_of_eq sender oracle now m y hym]
      rcases hy with rfl | ⟨_, t, _, rfl⟩
      · rfl
      · exact setStatusFields_comp x t.1 _ t.2.1 _ t.2.2 _
    · rw [deliverApply_of_ne sender oracle now m y hym]
      exact deliverFold_inv sender oracle now store1 hnd x hx L
        (fun m2 hm2 => hL m2 (by simp [hm2])) y hy

theorem sweepFold_ID (oracle : ActivityOracle) (L : List ScheduledMessage)
    (x : ScheduledMessage) : (sweepFold oracle L x).ID = x.ID := by
  rcases sweepFold_x_cases oracle L x x (Or.inl rfl) with h | h
  · rw [h]
  · rw [h]
    exact pausedOf_ID x

theorem checkAndPause_ids (oracle : ActivityOracle) (store : Store) (now : Int) :
    (checkAndPauseFutureMessages oracle store now).map (fun m => m.ID) =
      store.map fun m => m.ID := by
  rw [checkAndPause_eq_map, List.map_map]
  exact List.map_congr_left fun a _ => sweepFold_ID oracle _ a

theorem idsNodup_checkAndPause (oracle : ActivityOracle) (store : Store) (now : Int)
    (h : idsNodup store) : idsNodup (checkAndPauseFutureMessages oracle store now) := by
  unfold idsNodup
  rw [checkAndPause_ids]
  exact h

theorem pausedOf_fields (x : ScheduledMessage) :
    (pausedOf x).Status = "paused" ∧ (pausedOf x).SentAt = none ∧
      (pausedOf x).ErrorMessage = some "Recipient responded before scheduled time" := by
  simp [pausedOf, setStatusFields]

theorem split_of_mem_nodupIds (L : List ScheduledMessage) (x : ScheduledMessage)
    (hx : x ∈ L) (hnd : (L.map fun m => m.ID).Nodup) :
    ∃ L1 L2, L = L1 ++ x :: L2 ∧ (∀ m ∈ L1, m.ID ≠ x.ID) ∧ ∀ m ∈ L2, m.ID ≠ x.ID := by
  obtain ⟨L1, L2, rfl⟩ := List.append_of_mem hx
  refine ⟨L1, L2, rfl, ?_, ?_⟩
  all_goals
    have h2 : ((L1 ++ x :: L2).map fun m => m.ID) =
        L1.map (fun m => m.ID) ++ x.ID :: L2.map fun m => m.ID := by simp
    rw [h2] at hnd
    have h3 := List.nodup_middle.mp hnd
    rw [List.nodup_cons] at h3
    intro m hm he
    exact h3.1 (List.mem_append.mpr (by
      first
      | exact Or.inl (List.mem_map.mpr ⟨m, hm, he⟩)
      | exact Or.inr (List.mem_map.mpr ⟨m, hm, he⟩)))

theorem psmEvents_ids (sender : Sender) (oracle : ActivityOracle) (msg : ScheduledMessage) :
    ∀ e ∈ psmEvents sender oracle msg, e.id = msg.ID := by
  unfold psmEvents
  cases hc : msg.CheckForResponse
  · simp
  · cases hr : hasRecipientResponded oracle msg.Recipient msg.CreatedAt with
    | error e => simp
    | ok b => cases b <;> simp

theorem psmEvents_send (sender : Sender) (oracle : ActivityOracle) (msg : ScheduledMessage)
    (h : msg.CheckForResponse = false ∨
      hasRecipientResponded oracle msg.Recipient msg.CreatedAt = Except.ok false) :
    psmEvents sender oracle msg = [⟨msg.ID, msg.Recipient, msg.Message, ""⟩] := by
  cases hc : msg.CheckForResponse
  · simp [psmEvents, hc]
  · rcases h with h | h
    · exact absurd hc (by simp [h])
    · simp [psmEvents, hc, h]

theorem psmTriple_send (sender : Sender) (oracle : ActivityOracle) (now : Int)
    (msg : ScheduledMessage)
    (h : msg.CheckForResponse = false ∨
      hasRecipientResponded oracle msg.Recipient msg.CreatedAt = Except.ok false) :
    psmTriple sender oracle now msg = sendTriple sender now msg := by
  cases hc : msg.CheckForResponse
  · simp [psmTriple, hc]
  · rcases h with h | h
    · exact absurd hc (by simp [h])
    · simp [psmTriple, hc, h]

theorem psmTriple_oracle_error (sender : Sender) (oracle : ActivityOracle) (now : Int)
    (msg : ScheduledMessage) (e : String) (hc : msg.CheckForResponse = true)
    (hr : hasRecipientResponded oracle msg.Recipient msg.CreatedAt = Except.error e) :
    psmTriple sender oracle now msg =
      ("failed", none, some ("Error checking recipient response: " ++ e)) := by
  simp [psmTriple, hc, hr]

theorem getScheduledMessage_found {store : Store} {id : String} {msg : ScheduledMessage}
    (h : GetScheduledMessage store id = some msg) : msg ∈ store ∧ msg.ID = id := by
  refine ⟨List.mem_of_find?_eq_some h, ?_⟩
  have h2 := List.find?_some h
  simpa using h2

theorem storeOne_mem (oracle : ActivityOracle) (store : Store) (now : Int)
    (x : ScheduledMessage) (hx : x ∈ store) :
    sweepFold oracle (GetAllScheduledMessages store "pending" "") x ∈
      checkAndPauseFutureMessages oracle store now := by
  rw [checkAndPause_eq_map]
  exact List.mem_map.mpr ⟨x, hx, rfl⟩

/-! The claims. -/

/-- C7: for every store state and time now, GetPendingMessages (listDue)
returns exactly the rows whose status is pending and whose scheduled time is
at or before now — as a multiset it is a permutation of the filtered table —
in non-decreasing scheduled-time order, and it never returns a row whose
status is not pending.  Being a pure function of the store state, the order
it produces (including between equal scheduled times) is deterministic. -/
theorem C7_listDue_exact (store : Store) (now : Int) :
    (GetPendingMessages store now).Perm
        (store.filter fun m => m.Status == "pending" && decide (m.ScheduledTime ≤ now)) ∧
    (∀ m, m ∈ GetPendingMessages store now ↔
        m ∈ store ∧ m.Status = "pending" ∧ m.ScheduledTime ≤ now) ∧
    (GetPendingMessages store now).Pairwise
      (fun a b => a.ScheduledTime ≤ b.ScheduledTime) ∧
    ∀ m ∈ GetPendingMessages store now, m.Status = "pending" := by
  refine ⟨List.mergeSort_perm _ _, fun m => mem_getPendingMessages store now m, ?_, ?_⟩
  · have hs := @List.sorted_mergeSort ScheduledMessage
      (fun a b => decide (a.ScheduledTime ≤ b.ScheduledTime))
      (by
        intro a b c hab hbc
        simp only [decide_eq_true_eq] at hab hbc ⊢
        omega)
      (by
        intro a b
        simp only [Bool.or_eq_true, decide_eq_true_eq]
        omega)
      (store.filter fun m => m.Status == "pending" && decide (m.ScheduledTime ≤ now))
    exact hs.imp fun h => by simpa using h
  · intro m hm
    exact ((mem_getPendingMessages store now m).mp hm).2.1

/-- C9: UpdateMessageStatus keeps the store's length, rewrites every field of
the row with the given id except that exactly the status, sent-timestamp and
error columns are overwritten with the supplied values, and leaves every row
whose id differs completely unchanged. -/
theorem C9_updateStatus_frame (store : Store) (id status : String) (sentAt : Option Int)
    (errorMsg : Option String) :
    (UpdateMessageStatus store id status sentAt errorMsg).length = store.length ∧
    ∀ (i : Nat) (m : ScheduledMessage), store[i]? = some m →
      (m.ID ≠ id → (UpdateMessageStatus store id status sentAt errorMsg)[i]? = some m) ∧
      (m.ID = id →
        (UpdateMessageStatus store id status sentAt errorMsg)[i]? = some
          { ID := m.ID, Recipient := m.Recipient, Message := m.Message,
            ScheduledTime := m.ScheduledTime, CreatedAt := m.CreatedAt,
            LastMessageAt := m.LastMessageAt, CheckForResponse := m.CheckForResponse,
            Status := status, SentAt := sentAt, ErrorMessage := errorMsg }) := by
  refine ⟨updateStatus_length store id status sentAt errorMsg, fun i m hm => ⟨?_, ?_⟩⟩
  · intro hne
    rw [updateStatus_getElem, hm]
    simp [hne]
  · intro heq
    rw [updateStatus_getElem, hm]
    simp [heq, setStatusFields]

/-- C9 witness: updating row a of a two-row store leaves row b untouched. -/
theorem C9_updateStatus_frame_witness :
    (UpdateMessageStatus
        [⟨"a", "r", "m", 1, 0, 0, false, "pending", none, none⟩,
          ⟨"b", "r2", "m2", 2, 0, 0, false, "sent", some 3, none⟩]
        "a" "cancelled" none (some "Cancelled by user"))[1]? =
      some ⟨"b", "r2", "m2", 2, 0, 0, false, "sent", some 3, none⟩ :=
  ((C9_updateStatus_frame
      [⟨"a", "r", "m", 1, 0, 0, false, "pending", none, none⟩,
        ⟨"b", "r2", "m2", 2, 0, 0, false, "sent", some 3, none⟩]
      "a" "cancelled" none (some "Cancelled by user")).2 1
      ⟨"b", "r2", "m2", 2, 0, 0, false, "sent", some 3, none⟩ rfl).1 (by decide)

/-- C4 counterexample: the source guard is scheduledTime.Before(now), a
strict less-than, so a request whose scheduled time is exactly equal to the
current time is accepted and persisted as a pending row — the claim says it
must fail with InvalidTime. -/
theorem C4_counterexample_equal_time_accepted :
    ScheduleMessage (fun _ => Except.error "no data") "id1" 5 "12345" "hello" 5 false [] =
      Except.ok
        ([⟨"id1", "12345@s.whatsapp.net", "hello", 5, 5, 0, false, "pending", none, none⟩],
          ⟨"id1", "12345@s.whatsapp.net", "hello", 5, 5, 0, false, "pending", none, none⟩) := by
  rfl

/-- C4 amended: ScheduleMessage fails with the InvalidTime error exactly when
the requested scheduled time is strictly before the current time — a time
equal to now is accepted — and on failure it returns only the error, so no
row is persisted; otherwise it persists and returns a new row with status
pending and empty sent-at/error columns. -/
theorem C4_schedule_validation (lastOracle : LastActivityOracle) (newID : String)
    (now : Int) (recipient message : String) (scheduledTime : Int)
    (checkForResponse : Bool) (store : Store) :
    (scheduledTime < now →
      ScheduleMessage lastOracle newID now recipient message scheduledTime checkForResponse
          store =
        Except.error "scheduled time must be in the future") ∧
    (now ≤ scheduledTime →
      ∃ msg : ScheduledMessage,
        ScheduleMessage lastOracle newID now recipient message scheduledTime checkForResponse
            store =
          Except.ok (store ++ [msg], msg) ∧
        msg.Status = "pending" ∧ msg.ID = newID ∧ msg.Recipient = normalizeJID recipient ∧
        msg.Message = message ∧ msg.ScheduledTime = scheduledTime ∧ msg.CreatedAt = now ∧
        msg.CheckForResponse = checkForResponse ∧ msg.SentAt = none ∧
        msg.ErrorMessage = none) := by
  constructor
  · intro h
    simp [ScheduleMessage, h]
  · intro h
    have h2 : ¬ scheduledTime < now := by omega
    refine ⟨⟨newID, normalizeJID recipient, message, scheduledTime, now,
      (match lastOracle (normalizeJID recipient) with
        | Except.ok t => t
        | Except.error _ => 0),
      checkForResponse, "pending", none, none⟩, ?_, rfl, rfl, rfl, rfl, rfl, rfl, rfl, rfl, rfl⟩
    simp [ScheduleMessage, h2, InsertScheduledMessage]

/-- C4 witness: a request strictly in the past is rejected, and a request
strictly in the future is persisted as pending. -/
theorem C4_schedule_validation_witness :
    (ScheduleMessage (fun _ => Except.ok 2) "id2" 5 "a@b" "hi" 3 true [] =
      Except.error "scheduled time must be in the future") ∧
    ∃ msg : ScheduledMessage,
      ScheduleMessage (fun _ => Except.ok 2) "id2" 5 "a@b" "hi" 9 true [] =
        Except.ok ([] ++ [msg], msg) ∧
      msg.Status = "pending" ∧ msg.ID = "id2" ∧ msg.Recipient = normalizeJID "a@b" ∧
      msg.Message = "hi" ∧ msg.ScheduledTime = 9 ∧ msg.CreatedAt = 5 ∧
      msg.CheckForResponse = true ∧ msg.SentAt = none ∧ msg.ErrorMessage = none :=
  ⟨(C4_schedule_validation (fun _ => Except.ok 2) "id2" 5 "a@b" "hi" 3 true []).1
      (by decide),
    (C4_schedule_validation (fun _ => Except.ok 2) "id2" 5 "a@b" "hi" 9 true []).2
      (by decide)⟩

/-- C6: for a row found by id, cancel succeeds exactly from pending or paused
and rewrites that row to cancelled with the fixed reason; pause succeeds
exactly from pending and rewrites it to paused with the fixed reason; resume
succeeds exactly from paused and rewrites it back to pending clearing the
reason; in every failing case the handler returns InvalidTransition and no
updated store, and every row with a different id is untouched by a
successful operation. -/
theorem C6_control_surface (store : Store) (id : String) (msg : ScheduledMessage)
    (hfind : GetScheduledMessage store id = some msg) :
    ((msg.Status = "pending" ∨ msg.Status = "paused") →
      ∃ store2, cancelScheduledMessage store id = Except.ok store2 ∧
        ∀ (i : Nat) (x : ScheduledMessage), store[i]? = some x →
          store2[i]? = some
            (if x.ID = id then setStatusFields x "cancelled" none (some "Cancelled by user")
              else x)) ∧
    (msg.Status ≠ "pending" → msg.Status ≠ "paused" →
      cancelScheduledMessage store id = Except.error ApiError.invalidTransition) ∧
    (msg.Status = "pending" →
      ∃ store2, patchScheduledMessage store id "pause" = Except.ok store2 ∧
        ∀ (i : Nat) (x : ScheduledMessage), store[i]? = some x →
          store2[i]? = some
            (if x.ID = id then setStatusFields x "paused" none (some "Paused by user")
              else x)) ∧
    (msg.Status ≠ "pending" →
      patchScheduledMessage store id "pause" = Except.error ApiError.invalidTransition) ∧
    (msg.Status = "paused" →
      ∃ store2, patchScheduledMessage store id "resume" = Except.ok store2 ∧
        ∀ (i : Nat) (x : ScheduledMessage), store[i]? = some x →
          store2[i]? = some
            (if x.ID = id then setStatusFields x "pending" none none else x)) ∧
    (msg.Status ≠ "paused" →
      patchScheduledMessage store id "resume" = Except.error ApiError.invalidTransition) := by
  refine ⟨?_, ?_, ?_, ?_, ?_, ?_⟩
  · intro h
    refine ⟨UpdateMessageStatus store id "cancelled" none (some "Cancelled by user"), ?_, ?_⟩
    · unfold cancelScheduledMessage
      rw [hfind]
      rcases h with h | h <;> simp [h]
    · intro i x hx
      rw [updateStatus_getElem, hx]
      rfl
  · intro h1 h2
    unfold cancelScheduledMessage
    rw [hfind]
    simp [h1, h2]
  · intro h
    refine ⟨UpdateMessageStatus store id "paused" none (some "Paused by user"), ?_, ?_⟩
    · unfold patchScheduledMessage
      rw [hfind]
      simp [h]
    · intro i x hx
      rw [updateStatus_getElem, hx]
      rfl
  · intro h
    unfold patchScheduledMessage
    rw [hfind]
    simp [h]
  · intro h
    refine ⟨UpdateMessageStatus store id "pending" none none, ?_, ?_⟩
    · unfold patchScheduledMessage
      rw [hfind]
      simp [h]
    · intro i x hx
      rw [updateStatus_getElem, hx]
      rfl
  · intro h
    unfold patchScheduledMessage
    rw [hfind]
    simp [h]

/-- C6 witness: on a one-row store holding a paused row, cancel succeeds and
rewrites the row, while pause is rejected with InvalidTransition. -/
theorem C6_control_surface_witness :
    (∃ store2,
      cancelScheduledMessage [⟨"a", "r", "m", 1, 0, 0, false, "paused", none, some "why"⟩]
          "a" = Except.ok store2 ∧
      ∀ (i : Nat) (x : ScheduledMessage),
        ([⟨"a", "r", "m", 1, 0, 0, false, "paused", none, some "why"⟩] :
            Store)[i]? = some x →
        store2[i]? = some
          (if x.ID = "a" then setStatusFields x "cancelled" none (some "Cancelled by user")
            else x)) ∧
    patchScheduledMessage [⟨"a", "r", "m", 1, 0, 0, false, "paused", none, some "why"⟩]
        "a" "pause" = Except.error ApiError.invalidTransition :=
  ⟨(C6_control_surface [⟨"a", "r", "m", 1, 0, 0, false, "paused", none, some "why"⟩] "a"
      ⟨"a", "r", "m", 1, 0, 0, false, "paused", none, some "why"⟩ rfl).1 (Or.inr rfl),
    (C6_control_surface [⟨"a", "r", "m", 1, 0, 0, false, "paused", none, some "why"⟩] "a"
      ⟨"a", "r", "m", 1, 0, 0, false, "paused", none, some "why"⟩ rfl).2.2.2.1 (by decide)⟩

/-- The textbook contiguous-substring predicate: substr occurs inside s. -/
def occursIn (substr s : List Char) : Prop := ∃ t u, t ++ substr ++ u = s

theorem occursIn_of_slice (s substr : List Char) (i n : Nat)
    (h : (s.drop i).take n = substr) : occursIn substr s :=
  ⟨s.take i, (s.drop i).drop n, by
    rw [← h, List.append_assoc, List.take_append_drop, List.take_append_drop]⟩

theorem slice_of_occursIn (s substr : List Char) (h : occursIn substr s) :
    ∃ i, i + substr.length ≤ s.length ∧ (s.drop i).take substr.length = substr := by
  obtain ⟨t, u, rfl⟩ := h
  refine ⟨t.length, by simp, ?_⟩
  rw [List.append_assoc, List.drop_left, List.take_left]

theorem containsMiddle_iff (s substr : List Char) :
    containsMiddle s substr = true ↔
      ∃ i, i + substr.length ≤ s.length ∧ (s.drop i).take substr.length = substr := by
  unfold containsMiddle
  by_cases hle : substr.length ≤ s.length
  · simp only [hle, if_true, List.any_eq_true, List.mem_range, decide_eq_true_eq]
    constructor
    · rintro ⟨i, hi, h⟩
      exact ⟨i, by omega, h⟩
    · rintro ⟨i, hi, h⟩
      exact ⟨i, by omega, h⟩
  · rw [if_neg hle]
    constructor
    · intro h
      simp at h
    · rintro ⟨i, hi, _⟩
      exact absurd (by omega : substr.length ≤ s.length) hle

theorem contains_eq_true_iff (s substr : List Char) (hne : substr ≠ []) :
    contains s substr = true ↔ occursIn substr s := by
  have hlen : 0 < substr.length := List.length_pos.mpr hne
  constructor
  · intro h
    simp only [contains, Bool.and_eq_true, Bool.or_eq_true, decide_eq_true_eq,
      Bool.not_eq_true', beq_eq_false_iff_ne, ne_eq, beq_iff_eq] at h
    rcases h with ⟨⟨⟨⟨_, _⟩, _⟩, _⟩, heq | ⟨hlt, (hpre | hsuf) | hmid⟩⟩
    · exact ⟨[], [], by simp [heq]⟩
    · refine occursIn_of_slice s substr 0 substr.length ?_
      rw [List.drop_zero]
      exact hpre
    · refine occursIn_of_slice s substr (s.length - substr.length) substr.length ?_
      rw [hsuf]
      exact List.take_length substr
    · obtain ⟨i, _, hsl⟩ := (containsMiddle_iff s substr).mp hmid
      exact occursIn_of_slice s substr i substr.length hsl
  · intro h
    obtain ⟨i, hbound, hslice⟩ := slice_of_occursIn s substr h
    have hslen : substr.length ≤ s.length := by omega
    have hspos : 0 < s.length := by omega
    simp only [contains, Bool.and_eq_true, Bool.or_eq_true, decide_eq_true_eq,
      Bool.not_eq_true', beq_eq_false_iff_ne, ne_eq, beq_iff_eq]
    refine ⟨⟨⟨⟨hspos, hlen⟩, List.length_pos.mp hspos⟩, hne⟩, ?_⟩
    rcases Nat.lt_or_ge substr.length s.length with hlt | hge
    · exact Or.inr ⟨hlt, Or.inr ((containsMiddle_iff s substr).mpr ⟨i, hbound, hslice⟩)⟩
    · have hi0 : i = 0 := by omega
      have hveq : substr.length = s.length := by omega
      left
      rw [hi0, List.drop_zero, hveq, List.take_length] at hslice
      exact hslice

theorem occursIn_singleton (c : Char) (l : List Char) : occursIn [c] l ↔ c ∈ l := by
  constructor
  · rintro ⟨t, u, rfl⟩
    simp
  · intro h
    obtain ⟨t, u, rfl⟩ := List.append_of_mem h
    exact ⟨t, u, by simp⟩

/-- C10: the hand-rolled contains helper agrees with the textbook contiguous
substring predicate for every string and every non-empty pattern, and
consequently the recipient normalization appends the default domain suffix
exactly when the recipient contains no at-sign character. -/
theorem C10_contains_correct (s substr : List Char) (hne : substr ≠ []) (r : String) :
    (contains s substr = true ↔ occursIn substr s) ∧
    (normalizeJID r = r ++ "@s.whatsapp.net" ↔ ('@' : Char) ∉ r.data) ∧
    (('@' : Char) ∈ r.data → normalizeJID r = r) := by
  have hat : containsStr r "@" = true ↔ ('@' : Char) ∈ r.data := by
    rw [show containsStr r "@" = contains r.data ['@'] from rfl,
      contains_eq_true_iff r.data ['@'] (by simp)]
    exact occursIn_singleton '@' r.data
  refine ⟨contains_eq_true_iff s substr hne, ?_, ?_⟩
  · constructor
    · intro h hmem
      rw [normalizeJID, if_pos (hat.mpr hmem)] at h
      have hdata : r.data = r.data ++ "@s.whatsapp.net".data := by
        conv_lhs => rw [h]
        simp
      have : ("@s.whatsapp.net".data : List Char) = [] := (List.self_eq_append_right.mp hdata)
      simp at this
    · intro hmem
      rw [normalizeJID, if_neg]
      intro hcontr
      exact hmem (hat.mp hcontr)
  · intro hmem
    rw [normalizeJID, if_pos (hat.mpr hmem)]

/-- C10 witness: the pattern at-sign is non-empty; contains finds it inside a
JID-shaped recipient, matching the abstract predicate, and normalizeJID
leaves a recipient that already carries a domain untouched. -/
theorem C10_contains_correct_witness :
    (contains "user@host".data "@".data = true ↔ occursIn "@".data "user@host".data) ∧
    (('@' : Char) ∈ "user@host".data → normalizeJID "user@host" = "user@host") :=
  ⟨(C10_contains_correct "user@host".data "@".data (by decide) "user@host").1,
    (C10_contains_correct "user@host".data "@".data (by decide) "user@host").2.2⟩

/-- The per-row consistency predicate of the claim: a sent row carries a
sent timestamp and no reason; a failed, paused or cancelled row carries a
reason and no sent timestamp. -/
def consistentMsg (m : ScheduledMessage) : Prop :=
  (m.Status = "sent" → m.SentAt.isSome = true ∧ m.ErrorMessage = none) ∧
  ((m.Status = "failed" ∨ m.Status = "paused" ∨ m.Status = "cancelled") →
    m.ErrorMessage.isSome = true ∧ m.SentAt = none)

/-- The same consistency condition on a written column triple. -/
def consistentTriple (t : String × Option Int × Option String) : Prop :=
  (t.1 = "sent" → (t.2.1).isSome = true ∧ t.2.2 = none) ∧
  ((t.1 = "failed" ∨ t.1 = "paused" ∨ t.1 = "cancelled") →
    (t.2.2).isSome = true ∧ t.2.1 = none)

theorem consistentMsg_setStatusFields (m : ScheduledMessage)
    (t : String × Option Int × Option String) (h : consistentTriple t) :
    consistentMsg (setStatusFields m t.1 t.2.1 t.2.2) := by
  simpa [consistentMsg, setStatusFields] using h

theorem consistentTriple_failed (a : Option String) (ha : a.isSome = true) :
    consistentTriple ("failed", none, a) :=
  ⟨fun hcon => by simp at hcon, fun _ => ⟨ha, rfl⟩⟩

theorem consistentTriple_paused (a : Option String) (ha : a.isSome = true) :
    consistentTriple ("paused", none, a) :=
  ⟨fun hcon => by simp at hcon, fun _ => ⟨ha, rfl⟩⟩

theorem consistentTriple_sent (v : Option Int) (hv : v.isSome = true) :
    consistentTriple ("sent", v, none) :=
  ⟨fun _ => ⟨hv, rfl⟩, fun hcon => by
    rcases hcon with hcon | hcon | hcon <;> simp at hcon⟩

theorem psmTriple_consistent (sender : Sender) (oracle : ActivityOracle) (now : Int)
    (msg : ScheduledMessage) : consistentTriple (psmTriple sender oracle now msg) := by
  unfold psmTriple sendTriple
  cases hc : msg.CheckForResponse
  · cases hs : (sender msg.Recipient msg.Message "").1
    · simp only [hs, Bool.false_eq_true, if_false]
      exact consistentTriple_failed _ rfl
    · simp only [hs, if_true]
      exact consistentTriple_sent _ rfl
  · cases hr : hasRecipientResponded oracle msg.Recipient msg.CreatedAt with
    | error e =>
      simp only
      exact consistentTriple_failed _ rfl
    | ok b =>
      cases b
      · cases hs : (sender msg.Recipient msg.Message "").1
        · simp only [hs, Bool.false_eq_true, if_false]
          exact consistentTriple_failed _ rfl
        · simp only [hs, if_true]
          exact consistentTriple_sent _ rfl
      · simp only
        exact consistentTriple_paused _ rfl

theorem consistentMsg_pausedOf (x : ScheduledMessage) : consistentMsg (pausedOf x) := by
  unfold pausedOf
  exact consistentMsg_setStatusFields x
    ("paused", none, some "Recipient responded before scheduled time")
    (consistentTriple_paused _ rfl)

theorem sweepFold_consistent (oracle : ActivityOracle) (L : List ScheduledMessage)
    (x : ScheduledMessage) (h : consistentMsg x) :
    consistentMsg (sweepFold oracle L x) := by
  rcases sweepFold_x_cases oracle L x x (Or.inl rfl) with h2 | h2 <;> rw [h2]
  · exact h
  · exact consistentMsg_pausedOf x

theorem deliverFold_consistent (sender : Sender) (oracle : ActivityOracle) (now : Int) :
    ∀ (L : List ScheduledMessage) (y : ScheduledMessage), consistentMsg y →
      consistentMsg (deliverFold sender oracle now L y)
  | [], y, h => h
  | m :: L, y, h => by
    rw [show deliverFold sender oracle now (m :: L) y =
      deliverFold sender oracle now L (deliverApply sender oracle now m y) from rfl]
    by_cases hid : y.ID = m.ID
    · rw [deliverApply_of_eq sender oracle now m y hid]
      exact deliverFold_consistent sender oracle now L _
        (consistentMsg_setStatusFields y _ (psmTriple_consistent sender oracle now m))
    · rw [deliverApply_of_ne sender oracle now m y hid]
      exact deliverFold_consistent sender oracle now L y h

theorem consistentMsg_update (store : Store) (id : String)
    (t : String × Option Int × Option String) (ht : consistentTriple t)
    (h : ∀ m ∈ store, consistentMsg m) :
    ∀ m2 ∈ UpdateMessageStatus store id t.1 t.2.1 t.2.2, consistentMsg m2 := by
  intro m2 hm2
  unfold UpdateMessageStatus at hm2
  obtain ⟨m, hm, rfl⟩ := List.mem_map.mp hm2
  by_cases hid : m.ID = id
  · rw [if_pos hid]
    exact consistentMsg_setStatusFields m t ht
  · rw [if_neg hid]
    exact h m hm

/-- Shape of a successful ScheduleMessage call: the returned store is the
old store with the returned row appended, and that row starts pending with
empty sent-at and error columns. -/
theorem scheduleMessage_ok_shape (lastOracle : LastActivityOracle) (newID : String)
    (now : Int) (recipient message : String) (scheduledTime : Int)
    (checkForResponse : Bool) (store store2 : Store) (msg : ScheduledMessage)
    (hok : ScheduleMessage lastOracle newID now recipient message scheduledTime
        checkForResponse store = Except.ok (store2, msg)) :
    store2 = store ++ [msg] ∧ msg.Status = "pending" ∧ msg.SentAt = none ∧
      msg.ErrorMessage = none ∧ msg.ID = newID := by
  unfold ScheduleMessage at hok
  by_cases hlt : scheduledTime < now
  · rw [if_pos hlt] at hok
    cases hok
  · rw [if_neg hlt] at hok
    simp only [InsertScheduledMessage, Except.ok.injEq, Prod.mk.injEq] at hok
    obtain ⟨h1, h2⟩ := hok
    subst h2
    exact ⟨h1.symm, rfl, rfl, rfl, rfl⟩

/-- Shape of a successful cancel: the row was found pending or paused, and
the result is the cancelled rewrite of the store. -/
theorem cancel_ok_shape (store : Store) (id : String) (store2 : Store)
    (hok : cancelScheduledMessage store id = Except.ok store2) :
    ∃ msg, GetScheduledMessage store id = some msg ∧
      (msg.Status = "pending" ∨ msg.Status = "paused") ∧
      store2 = UpdateMessageStatus store id "cancelled" none (some "Cancelled by user") := by
  cases hfind : GetScheduledMessage store id with
  | none =>
    have hval : cancelScheduledMessage store id = Except.error ApiError.notFound := by
      unfold cancelScheduledMessage
      rw [hfind]
    rw [hval] at hok
    cases hok
  | some msg =>
    by_cases hcond : (msg.Status != "pending" && msg.Status != "paused") = true
    · have hval : cancelScheduledMessage store id = Except.error ApiError.invalidTransition := by
        unfold cancelScheduledMessage
        rw [hfind]
        simp [hcond]
      rw [hval] at hok
      cases hok
    · have hps : msg.Status = "pending" ∨ msg.Status = "paused" := by
        by_contra hcon
        push_neg at hcon
        exact hcond (by simp [bne_iff_ne, hcon.1, hcon.2])
      have hval : cancelScheduledMessage store id =
          Except.ok (UpdateMessageStatus store id "cancelled" none
            (some "Cancelled by user")) := by
        unfold cancelScheduledMessage
        rw [hfind]
        simp [hcond]
      rw [hval] at hok
      injection hok with h2
      exact ⟨msg, rfl, hps, h2.symm⟩

/-- Shape of a successful pause or resume: the row was found in the one
status the action allows, and the result is the corresponding rewrite. -/
theorem patch_ok_shape (store : Store) (id action : String) (store2 : Store)
    (hok : patchScheduledMessage store id action = Except.ok store2) :
    ∃ msg, GetScheduledMessage store id = some msg ∧
      ((action = "pause" ∧ msg.Status = "pending" ∧
        store2 = UpdateMessageStatus store id "paused" none (some "Paused by user")) ∨
       (action = "resume" ∧ msg.Status = "paused" ∧
        store2 = UpdateMessageStatus store id "pending" none none)) := by
  cases hfind : GetScheduledMessage store id with
  | none =>
    have hval : patchScheduledMessage store id action = Except.error ApiError.notFound := by
      unfold patchScheduledMessage
      rw [hfind]
    rw [hval] at hok
    cases hok
  | some msg =>
    by_cases hpa : (action == "pause") = true
    · by_cases hst : (msg.Status != "pending") = true
      · have hval : patchScheduledMessage store id action =
            Except.error ApiError.invalidTransition := by
          unfold patchScheduledMessage
          rw [hfind]
          simp [hpa, hst]
        rw [hval] at hok
        cases hok
      · have hval : patchScheduledMessage store id action =
            Except.ok (UpdateMessageStatus store id "paused" none (some "Paused by user")) := by
          unfold patchScheduledMessage
          rw [hfind]
          simp [hpa, hst]
        rw [hval] at hok
        injection hok with h2
        refine ⟨msg, rfl, Or.inl ⟨by simpa using hpa, ?_, h2.symm⟩⟩
        simpa using hst
    · by_cases hre : (action == "resume") = true
      · by_cases hst : (msg.Status != "paused") = true
        · have hval : patchScheduledMessage store id action =
              Except.error ApiError.invalidTransition := by
            unfold patchScheduledMessage
            rw [hfind]
            simp [hpa, hre, hst]
          rw [hval] at hok
          cases hok
        · have hval : patchScheduledMessage store id action =
              Except.ok (UpdateMessageStatus store id "pending" none none) := by
            unfold patchScheduledMessage
            rw [hfind]
            simp [hpa, hre, hst]
          rw [hval] at hok
          injection hok with h2
          refine ⟨msg, rfl, Or.inr ⟨by simpa using hre, ?_, h2.symm⟩⟩
          simpa using hst
      · have hval : patchScheduledMessage store id action =
            Except.error ApiError.invalidAction := by
          unfold patchScheduledMessage
          rw [hfind]
          simp [hpa, hre]
        rw [hval] at hok
        cases hok

/-- C8: the per-row consistency predicate — sent implies a sent timestamp
and no reason, while failed, paused and cancelled imply a reason and no sent
timestamp — is preserved by every operation: scheduling a new row, a full
tick of the evaluator, and the cancel, pause and resume handlers. -/
theorem C8_status_fields_invariant (store : Store) (h : ∀ m ∈ store, consistentMsg m) :
    (∀ (lastOracle : LastActivityOracle) (newID : String) (now : Int)
        (recipient message : String) (scheduledTime : Int) (checkForResponse : Bool)
        (store2 : Store) (msg : ScheduledMessage),
      ScheduleMessage lastOracle newID now recipient message scheduledTime checkForResponse
          store = Except.ok (store2, msg) →
      ∀ m2 ∈ store2, consistentMsg m2) ∧
    (∀ (sender : Sender) (oracle : ActivityOracle) (now : Int),
      ∀ m2 ∈ (processScheduledMessages sender oracle now store).1, consistentMsg m2) ∧
    (∀ (id : String) (store2 : Store), cancelScheduledMessage store id = Except.ok store2 →
      ∀ m2 ∈ store2, consistentMsg m2) ∧
    (∀ (id action : String) (store2 : Store),
      patchScheduledMessage store id action = Except.ok store2 →
      ∀ m2 ∈ store2, consistentMsg m2) := by
  refine ⟨?_, ?_, ?_, ?_⟩
  · intro lastOracle newID now recipient message scheduledTime checkForResponse store2 msg hok
    obtain ⟨h1, h2, h3, h4, _⟩ := scheduleMessage_ok_shape lastOracle newID now recipient
      message scheduledTime checkForResponse store store2 msg hok
    intro m2 hm2
    rw [h1] at hm2
    rcases List.mem_append.mp hm2 with hm | hm
    · exact h m2 hm
    · rw [List.mem_singleton.mp hm]
      refine ⟨fun hcon => absurd (h2 ▸ hcon) (by decide), fun hcon => ?_⟩
      rcases hcon with hcon | hcon | hcon <;> exact absurd (h2 ▸ hcon) (by decide)
  · intro sender oracle now m2 hm2
    rw [processScheduledMessages_eq] at hm2
    simp only at hm2
    obtain ⟨y, hy, rfl⟩ := List.mem_map.mp hm2
    rw [checkAndPause_eq_map] at hy
    obtain ⟨x, hx, rfl⟩ := List.mem_map.mp hy
    exact deliverFold_consistent sender oracle now _ _
      (sweepFold_consistent oracle _ x (h x hx))
  · intro id store2 hok
    obtain ⟨msg, _, _, h3⟩ := cancel_ok_shape store id store2 hok
    rw [h3]
    refine consistentMsg_update store id ("cancelled", none, some "Cancelled by user") ?_ h
    exact ⟨fun hcon => absurd hcon (by decide), fun _ => by simp⟩
  · intro id action store2 hok
    obtain ⟨msg, _, hshape⟩ := patch_ok_shape store id action store2 hok
    rcases hshape with ⟨_, _, h3⟩ | ⟨_, _, h3⟩ <;> rw [h3]
    · refine consistentMsg_update store id ("paused", none, some "Paused by user") ?_ h
      exact ⟨fun hcon => absurd hcon (by decide), fun _ => by simp⟩
    · refine consistentMsg_update store id ("pending", none, none) ?_ h
      refine ⟨fun hcon => absurd hcon (by decide), fun hcon => ?_⟩
      rcases hcon with hcon | hcon | hcon <;> exact absurd hcon (by decide)

/-- C8 witness: the row a successful schedule call appends to the empty
store is consistent. -/
theorem C8_status_fields_invariant_witness :
    consistentMsg ⟨"id1", "12345@s.whatsapp.net", "hello", 5, 5, 0, false, "pending",
      none, none⟩ :=
  (C8_status_fields_invariant [] (by intro m hm; cases hm)).1
    (fun _ => Except.error "no data") "id1" 5 "12345" "hello" 5 false
    [⟨"id1", "12345@s.whatsapp.net", "hello", 5, 5, 0, false, "pending", none, none⟩]
    ⟨"id1", "12345@s.whatsapp.net", "hello", 5, 5, 0, false, "pending", none, none⟩
    (by rfl)
    ⟨"id1", "12345@s.whatsapp.net", "hello", 5, 5, 0, false, "pending", none, none⟩
    (by decide)

/-- C2: a pending row with the response-check flag set whose recipient the
oracle reports as having responded after the row's creation time is paused
by a single tick — with the fixed reason recording that the recipient
responded before the scheduled time — regardless of whether its due time has
arrived, and the external sender is never invoked for that row during the
tick. -/
theorem C2_prepause_suppression (sender : Sender) (oracle : ActivityOracle) (now : Int)
    (store : Store) (hnd : idsNodup store) (i : Nat) (x : ScheduledMessage)
    (hx : store[i]? = some x) (hp : x.Status = "pending") (hc : x.CheckForResponse = true)
    (hr : hasRecipientResponded oracle x.Recipient x.CreatedAt = Except.ok true) :
    ((processScheduledMessages sender oracle now store).1)[i]? = some (pausedOf x) ∧
    (pausedOf x).Status = "paused" ∧
    (pausedOf x).ErrorMessage = some "Recipient responded before scheduled time" ∧
    ∀ e ∈ (processScheduledMessages sender oracle now store).2, e.id ≠ x.ID := by
  have hxmem : x ∈ store := List.getElem?_mem hx
  have hsnap : x ∈ GetAllScheduledMessages store "pending" "" :=
    (mem_getAllPending store x).mpr ⟨hxmem, hp⟩
  have hsw : sweepFold oracle (GetAllScheduledMessages store "pending" "") x = pausedOf x :=
    sweepFold_pauses oracle _ x hsnap hc hr
  have hnd1 : idsNodup (checkAndPauseFutureMessages oracle store now) :=
    idsNodup_checkAndPause oracle store now hnd
  have hpmem : pausedOf x ∈ checkAndPauseFutureMessages oracle store now := by
    have h2 := storeOne_mem oracle store now x hxmem
    rwa [hsw] at h2
  have hstore1 : (checkAndPauseFutureMessages oracle store now)[i]? = some (pausedOf x) := by
    rw [checkAndPause_eq_map, List.getElem?_map, hx]
    simp [hsw]
  have hmsgs : ∀ m ∈ GetPendingMessages (checkAndPauseFutureMessages oracle store now) now,
      m.ID ≠ x.ID := by
    intro m hm he
    obtain ⟨hm1, hm2, _⟩ := (mem_getPendingMessages _ now m).mp hm
    have hmx : m = pausedOf x :=
      eq_of_mem_of_id_eq hnd1 hm1 hpmem (by rw [he, pausedOf_ID])
    rw [hmx, (pausedOf_fields x).1] at hm2
    exact absurd hm2 (by decide)
  refine ⟨?_, (pausedOf_fields x).1, (pausedOf_fields x).2.2, ?_⟩
  · have hdf : deliverFold sender oracle now
        (GetPendingMessages (checkAndPauseFutureMessages oracle store now) now)
        (pausedOf x) = pausedOf x :=
      deliverFold_skip sender oracle now _ (pausedOf x)
        (by
          intro m hm
          rw [pausedOf_ID]
          exact hmsgs m hm)
    rw [processScheduledMessages_eq]
    simp only
    rw [List.getElem?_map, hstore1]
    simp [hdf]
  · intro e he
    rw [processScheduledMessages_eq] at he
    simp only at he
    obtain ⟨m, hm, hem⟩ := List.mem_flatMap.mp he
    rw [psmEvents_ids sender oracle m e hem]
    exact hmsgs m hm

/-- C2 witness: with an oracle that always answers true, a tick pauses the
single not-yet-due check-enabled pending row and performs no send. -/
theorem C2_prepause_suppression_witness :
    ((processScheduledMessages (fun _ _ _ => (true, "")) (fun _ _ => Except.ok true) 0
        [⟨"a", "r", "m", 99, 0, 0, true, "pending", none, none⟩]).1)[0]? =
      some (pausedOf ⟨"a", "r", "m", 99, 0, 0, true, "pending", none, none⟩) ∧
    (pausedOf ⟨"a", "r", "m", 99, 0, 0, true, "pending", none, none⟩).Status = "paused" :=
  ⟨(C2_prepause_suppression (fun _ _ _ => (true, "")) (fun _ _ => Except.ok true) 0
      [⟨"a", "r", "m", 99, 0, 0, true, "pending", none, none⟩] (by decide) 0
      ⟨"a", "r", "m", 99, 0, 0, true, "pending", none, none⟩ rfl rfl rfl rfl).1,
    (C2_prepause_suppression (fun _ _ _ => (true, "")) (fun _ _ => Except.ok true) 0
      [⟨"a", "r", "m", 99, 0, 0, true, "pending", none, none⟩] (by decide) 0
      ⟨"a", "r", "m", 99, 0, 0, true, "pending", none, none⟩ rfl rfl rfl rfl).2.1⟩

/-- C5: a failing has-recipient-responded query is handled asymmetrically:
the pre-pause sweep leaves the affected pending row completely unchanged,
while due-item delivery turns the same failure into status failed with the
wrapped check error as reason (and a not-yet-due row survives the whole tick
unchanged). -/
theorem C5_oracle_failure_asymmetry (sender : Sender) (oracle : ActivityOracle) (now : Int)
    (store : Store) (hnd : idsNodup store) (i : Nat) (x : ScheduledMessage) (e : String)
    (hx : store[i]? = some x) (hp : x.Status = "pending") (hc : x.CheckForResponse = true)
    (hr : hasRecipientResponded oracle x.Recipient x.CreatedAt = Except.error e) :
    (checkAndPauseFutureMessages oracle store now)[i]? = some x ∧
    (x.ScheduledTime ≤ now →
      ((processScheduledMessages sender oracle now store).1)[i]? =
        some (setStatusFields x "failed" none
          (some ("Error checking recipient response: " ++ e)))) ∧
    (¬ x.ScheduledTime ≤ now →
      ((processScheduledMessages sender oracle now store).1)[i]? = some x) := by
  have hxmem : x ∈ store := List.getElem?_mem hx
  have hnot : ¬(x.CheckForResponse = true ∧
      hasRecipientResponded oracle x.Recipient x.CreatedAt = Except.ok true) := by
    rintro ⟨_, h2⟩
    rw [hr] at h2
    cases h2
  have hsw : sweepFold oracle (GetAllScheduledMessages store "pending" "") x = x :=
    sweepFold_skip oracle store hnd x hxmem (Or.inr hnot) _
      fun m hm => (mem_getAllPending store m).mp hm
  have hnd1 : idsNodup (checkAndPauseFutureMessages oracle store now) :=
    idsNodup_checkAndPause oracle store now hnd
  have hxmem1 : x ∈ checkAndPauseFutureMessages oracle store now := by
    have h2 := storeOne_mem oracle store now x hxmem
    rwa [hsw] at h2
  have hstore1 : (checkAndPauseFutureMessages oracle store now)[i]? = some x := by
    rw [checkAndPause_eq_map, List.getElem?_map, hx]
    simp [hsw]
  refine ⟨hstore1, ?_, ?_⟩
  · intro hdue
    have hxmsgs : x ∈ GetPendingMessages (checkAndPauseFutureMessages oracle store now) now :=
      (mem_getPendingMessages _ now x).mpr ⟨hxmem1, hp, hdue⟩
    have hndm : idsNodup
        (GetPendingMessages (checkAndPauseFutureMessages oracle store now) now) :=
      idsNodup_getPendingMessages _ now hnd1
    obtain ⟨L1, L2, hsplit, h1, h2⟩ :=
      split_of_mem_nodupIds _ x hxmsgs hndm
    have hdf : deliverFold sender oracle now
        (GetPendingMessages (checkAndPauseFutureMessages oracle store now) now) x =
        setStatusFields x (psmTriple sender oracle now x).1
          (psmTriple sender oracle now x).2.1 (psmTriple sender oracle now x).2.2 := by
      rw [hsplit]
      exact deliverFold_unique sender oracle now L1 L2 x x rfl h1 h2
    rw [processScheduledMessages_eq]
    simp only
    rw [List.getElem?_map, hstore1]
    rw [psmTriple_oracle_error sender oracle now x e hc hr] at hdf
    simp [hdf]
  · intro hdue
    have hskip : ∀ m ∈ GetPendingMessages (checkAndPauseFutureMessages oracle store now) now,
        m.ID ≠ x.ID := by
      intro m hm he
      obtain ⟨hm1, _, hm3⟩ := (mem_getPendingMessages _ now m).mp hm
      have hmx : m = x := eq_of_mem_of_id_eq hnd1 hm1 hxmem1 he
      rw [hmx] at hm3
      exact hdue hm3
    have hdf : deliverFold sender oracle now
        (GetPendingMessages (checkAndPauseFutureMessages oracle store now) now) x = x :=
      deliverFold_skip sender oracle now _ x hskip
    rw [processScheduledMessages_eq]
    simp only
    rw [List.getElem?_map, hstore1]
    simp [hdf]

/-- C5 witness: with an always-failing oracle and a due check-enabled row,
the sweep leaves the row unchanged and the tick marks it failed with the
wrapped error text. -/
theorem C5_oracle_failure_asymmetry_witness :
    (checkAndPauseFutureMessages (fun _ _ => Except.error "boom")
        [⟨"a", "r", "m", 0, 0, 0, true, "pending", none, none⟩] 0)[0]? =
      some ⟨"a", "r", "m", 0, 0, 0, true, "pending", none, none⟩ ∧
    ((processScheduledMessages (fun _ _ _ => (true, "")) (fun _ _ => Except.error "boom") 0
        [⟨"a", "r", "m", 0, 0, 0, true, "pending", none, none⟩]).1)[0]? =
      some (setStatusFields ⟨"a", "r", "m", 0, 0, 0, true, "pending", none, none⟩ "failed"
        none (some ("Error checking recipient response: " ++ "boom"))) :=
  ⟨(C5_oracle_failure_asymmetry (fun _ _ _ => (true, "")) (fun _ _ => Except.error "boom") 0
      [⟨"a", "r", "m", 0, 0, 0, true, "pending", none, none⟩] (by decide) 0
      ⟨"a", "r", "m", 0, 0, 0, true, "pending", none, none⟩ "boom" rfl rfl rfl rfl).1,
    (C5_oracle_failure_asymmetry (fun _ _ _ => (true, "")) (fun _ _ => Except.error "boom") 0
      [⟨"a", "r", "m", 0, 0, 0, true, "pending", none, none⟩] (by decide) 0
      ⟨"a", "r", "m", 0, 0, 0, true, "pending", none, none⟩ "boom" rfl rfl rfl rfl).2.1
      (by decide)⟩

/-- C3: a due pending row that is actually delivered (response check off, or
the oracle answers that the recipient has not responded) causes exactly one
sender invocation for it during the tick; on sender success the row becomes
sent with the tick timestamp and no reason, on sender failure it becomes
failed with the sender's reported error text as reason; and for any store, a
tick never touches — and never invokes the sender for — a row whose status
is sent or failed, so a subsequent tick cannot re-attempt delivery. -/
theorem C3_due_delivery (sender : Sender) (oracle : ActivityOracle) (now : Int)
    (store : Store) (hnd : idsNodup store) (i : Nat) (x : ScheduledMessage)
    (hx : store[i]? = some x) (hp : x.Status = "pending") (hdue : x.ScheduledTime ≤ now)
    (hnc : x.CheckForResponse = false ∨
      hasRecipientResponded oracle x.Recipient x.CreatedAt = Except.ok false) :
    ((processScheduledMessages sender oracle now store).2).filter
        (fun ev => ev.id == x.ID) = [⟨x.ID, x.Recipient, x.Message, ""⟩] ∧
    (∀ s : String, sender x.Recipient x.Message "" = (true, s) →
      ((processScheduledMessages sender oracle now store).1)[i]? =
        some (setStatusFields x "sent" (some now) none)) ∧
    (∀ err : String, sender x.Recipient x.Message "" = (false, err) →
      ((processScheduledMessages sender oracle now store).1)[i]? =
        some (setStatusFields x "failed" none (some err))) ∧
    (∀ (store2 : Store) (j : Nat) (z : ScheduledMessage), idsNodup store2 →
      store2[j]? = some z → (z.Status = "sent" ∨ z.Status = "failed") →
      ((processScheduledMessages sender oracle now store2).1)[j]? = some z ∧
        ∀ ev ∈ (processScheduledMessages sender oracle now store2).2, ev.id ≠ z.ID) := by
  have hxmem : x ∈ store := List.getElem?_mem hx
  have hnot : ¬(x.CheckForResponse = true ∧
      hasRecipientResponded oracle x.Recipient x.CreatedAt = Except.ok true) := by
    rintro ⟨h1, h2⟩
    rcases hnc with h3 | h3
    · rw [h3] at h1
      cases h1
    · rw [h3] at h2
      simp at h2
  have hsw : sweepFold oracle (GetAllScheduledMessages store "pending" "") x = x :=
    sweepFold_skip oracle store hnd x hxmem (Or.inr hnot) _
      fun m hm => (mem_getAllPending store m).mp hm
  have hnd1 : idsNodup (checkAndPauseFutureMessages oracle store now) :=
    idsNodup_checkAndPause oracle store now hnd
  have hxmem1 : x ∈ checkAndPauseFutureMessages oracle store now := by
    have h2 := storeOne_mem oracle store now x hxmem
    rwa [hsw] at h2
  have hstore1 : (checkAndPauseFutureMessages oracle store now)[i]? = some x := by
    rw [checkAndPause_eq_map, List.getElem?_map, hx]
    simp [hsw]
  have hxmsgs : x ∈ GetPendingMessages (checkAndPauseFutureMessages oracle store now) now :=
    (mem_getPendingMessages _ now x).mpr ⟨hxmem1, hp, hdue⟩
  have hndm : idsNodup
      (GetPendingMessages (checkAndPauseFutureMessages oracle store now) now) :=
    idsNodup_getPendingMessages _ now hnd1
  obtain ⟨L1, L2, hsplit, h1, h2⟩ := split_of_mem_nodupIds _ x hxmsgs hndm
  have hdf : deliverFold sender oracle now
      (GetPendingMessages (checkAndPauseFutureMessages oracle store now) now) x =
      setStatusFields x (psmTriple sender oracle now x).1
        (psmTriple sender oracle now x).2.1 (psmTriple sender oracle now x).2.2 := by
    rw [hsplit]
    exact deliverFold_unique sender oracle now L1 L2 x x rfl h1 h2
  refine ⟨?_, ?_, ?_, ?_⟩
  · rw [processScheduledMessages_eq]
    simp only
    rw [hsplit, List.flatMap_append, List.flatMap_cons, List.filter_append,
      List.filter_append]
    have hL1 : (L1.flatMap (psmEvents sender oracle)).filter (fun ev => ev.id == x.ID) =
        [] := by
      rw [List.filter_eq_nil_iff]
      intro a ha
      obtain ⟨m, hm, ham⟩ := List.mem_flatMap.mp ha
      rw [psmEvents_ids sender oracle m a ham]
      simpa using h1 m hm
    have hL2 : (L2.flatMap (psmEvents sender oracle)).filter (fun ev => ev.id == x.ID) =
        [] := by
      rw [List.filter_eq_nil_iff]
      intro a ha
      obtain ⟨m, hm, ham⟩ := List.mem_flatMap.mp ha
      rw [psmEvents_ids sender oracle m a ham]
      simpa using h2 m hm
    rw [hL1, hL2, psmEvents_send sender oracle x hnc]
    simp
  · intro s hsend
    have htr : psmTriple sender oracle now x = ("sent", some now, none) := by
      rw [psmTriple_send sender oracle now x hnc]
      simp [sendTriple, hsend]
    rw [htr] at hdf
    rw [processScheduledMessages_eq]
    simp only
    rw [List.getElem?_map, hstore1]
    simp [hdf]
  · intro err hsend
    have htr : psmTriple sender oracle now x = ("failed", none, some err) := by
      rw [psmTriple_send sender oracle now x hnc]
      simp [sendTriple, hsend]
    rw [htr] at hdf
    rw [processScheduledMessages_eq]
    simp only
    rw [List.getElem?_map, hstore1]
    simp [hdf]
  · intro store2 j z hnd2 hz hzs
    have hzmem : z ∈ store2 := List.getElem?_mem hz
    have hznp : z.Status ≠ "pending" := by
      rcases hzs with h3 | h3 <;> rw [h3] <;> decide
    have hsw2 : sweepFold oracle (GetAllScheduledMessages store2 "pending" "") z = z :=
      sweepFold_skip oracle store2 hnd2 z hzmem (Or.inl hznp) _
        fun m hm => (mem_getAllPending store2 m).mp hm
    have hnd21 : idsNodup (checkAndPauseFutureMessages oracle store2 now) :=
      idsNodup_checkAndPause oracle store2 now hnd2
    have hzmem1 : z ∈ checkAndPauseFutureMessages oracle store2 now := by
      have h3 := storeOne_mem oracle store2 now z hzmem
      rwa [hsw2] at h3
    have hstore21 : (checkAndPauseFutureMessages oracle store2 now)[j]? = some z := by
      rw [checkAndPause_eq_map, List.getElem?_map, hz]
      simp [hsw2]
    have hskip : ∀ m ∈ GetPendingMessages (checkAndPauseFutureMessages oracle store2 now) now,
        m.ID ≠ z.ID := by
      intro m hm he
      obtain ⟨hm1, hm2, _⟩ := (mem_getPendingMessages _ now m).mp hm
      have hmz : m = z := eq_of_mem_of_id_eq hnd21 hm1 hzmem1 he
      rw [hmz] at hm2
      exact hznp hm2
    constructor
    · rw [processScheduledMessages_eq]
      simp only
      rw [List.getElem?_map, hstore21]
      simp [deliverFold_skip sender oracle now _ z hskip]
    · intro ev hev
      rw [processScheduledMessages_eq] at hev
      simp only at hev
      obtain ⟨m, hm, hevm⟩ := List.mem_flatMap.mp hev
      rw [psmEvents_ids sender oracle m ev hevm]
      exact hskip m hm

/-- C3 witness: a due check-disabled row with a succeeding sender is sent
with the tick timestamp, and the tick's event log contains exactly one send
for it. -/
theorem C3_due_delivery_witness :
    ((processScheduledMessages (fun _ _ _ => (true, "")) (fun _ _ => Except.ok false) 7
        [⟨"a", "r", "m", 0, 0, 0, false, "pending", none, none⟩]).2).filter
        (fun ev => ev.id == "a") =
      [⟨"a", "r", "m", ""⟩] ∧
    ((processScheduledMessages (fun _ _ _ => (true, "")) (fun _ _ => Except.ok false) 7
        [⟨"a", "r", "m", 0, 0, 0, false, "pending", none, none⟩]).1)[0]? =
      some (setStatusFields ⟨"a", "r", "m", 0, 0, 0, false, "pending", none, none⟩
        "sent" (some 7) none) :=
  ⟨(C3_due_delivery (fun _ _ _ => (true, "")) (fun _ _ => Except.ok false) 7
      [⟨"a", "r", "m", 0, 0, 0, false, "pending", none, none⟩] (by decide) 0
      ⟨"a", "r", "m", 0, 0, 0, false, "pending", none, none⟩ rfl rfl (by decide)
      (Or.inl rfl)).1,
    (C3_due_delivery (fun _ _ _ => (true, "")) (fun _ _ => Except.ok false) 7
      [⟨"a", "r", "m", 0, 0, 0, false, "pending", none, none⟩] (by decide) 0
      ⟨"a", "r", "m", 0, 0, 0, false, "pending", none, none⟩ rfl rfl (by decide)
      (Or.inl rfl)).2.1 "" rfl⟩

/-- The directed edges of the section 4.2 status state machine: pending may
move to sent, paused, cancelled or failed; paused may move back to pending
or to cancelled; sent, cancelled and failed have no outgoing edges. -/
def allowedEdge (a b : String) : Prop :=
  (a = "pending" ∧ (b = "sent" ∨ b = "paused" ∨ b = "cancelled" ∨ b = "failed")) ∨
  (a = "paused" ∧ (b = "pending" ∨ b = "cancelled"))

/-- C1: under the primary-key constraint, every publicly reachable operation
— schedule, a full tick (pre-pause sweep plus due-item delivery), and the
control surface's cancel/pause/resume — either leaves a row's status alone
or moves it along an edge of the section 4.2 state machine; schedule only
appends a fresh pending row and does not touch existing rows. -/
theorem C1_state_machine (store : Store) (hnd : idsNodup store) :
    (∀ (lastOracle : LastActivityOracle) (newID : String) (now : Int)
        (recipient message : String) (scheduledTime : Int) (checkForResponse : Bool)
        (store2 : Store) (msg : ScheduledMessage),
      ScheduleMessage lastOracle newID now recipient message scheduledTime checkForResponse
          store = Except.ok (store2, msg) →
      msg.Status = "pending" ∧
        ∀ (i : Nat) (x : ScheduledMessage), store[i]? = some x → store2[i]? = some x) ∧
    (∀ (sender : Sender) (oracle : ActivityOracle) (now : Int) (i : Nat)
        (x y : ScheduledMessage),
      store[i]? = some x →
      ((processScheduledMessages sender oracle now store).1)[i]? = some y →
      y.Status = x.Status ∨ allowedEdge x.Status y.Status) ∧
    (∀ (id : String) (store2 : Store), cancelScheduledMessage store id = Except.ok store2 →
      ∀ (i : Nat) (x y : ScheduledMessage), store[i]? = some x → store2[i]? = some y →
        y.Status = x.Status ∨ allowedEdge x.Status y.Status) ∧
    (∀ (id action : String) (store2 : Store),
      patchScheduledMessage store id action = Except.ok store2 →
      ∀ (i : Nat) (x y : ScheduledMessage), store[i]? = some x → store2[i]? = some y →
        y.Status = x.Status ∨ allowedEdge x.Status y.Status) := by
  refine ⟨?_, ?_, ?_, ?_⟩
  · intro lastOracle newID now recipient message scheduledTime checkForResponse store2 msg hok
    obtain ⟨h1, h2, _, _, _⟩ := scheduleMessage_ok_shape lastOracle newID now recipient
      message scheduledTime checkForResponse store store2 msg hok
    refine ⟨h2, fun i x hx => ?_⟩
    obtain ⟨hi, _⟩ := List.getElem?_eq_some_iff.mp hx
    rw [h1, List.getElem?_append_left hi]
    exact hx
  · intro sender oracle now i x y hx hy
    have hxmem : x ∈ store := List.getElem?_mem hx
    have hnd1 : idsNodup (checkAndPauseFutureMessages oracle store now) :=
      idsNodup_checkAndPause oracle store now hnd
    have hL : ∀ m ∈ GetPendingMessages (checkAndPauseFutureMessages oracle store now) now,
        m ∈ checkAndPauseFutureMessages oracle store now ∧ m.Status = "pending" :=
      fun m hm =>
        ⟨((mem_getPendingMessages _ now m).mp hm).1, ((mem_getPendingMessages _ now m).mp hm).2.1⟩
    have hstore1 : (checkAndPauseFutureMessages oracle store now)[i]? =
        some (sweepFold oracle (GetAllScheduledMessages store "pending" "") x) := by
      rw [checkAndPause_eq_map, List.getElem?_map, hx]
      rfl
    have hyval : y = deliverFold sender oracle now
        (GetPendingMessages (checkAndPauseFutureMessages oracle store now) now)
        (sweepFold oracle (GetAllScheduledMessages store "pending" "") x) := by
      rw [processScheduledMessages_eq] at hy
      simp only at hy
      rw [List.getElem?_map, hstore1] at hy
      simp only [Option.map] at hy
      exact (Option.some.injEq _ _).mp hy.symm
    by_cases hp : x.Status = "pending"
    · rcases sweepFold_x_cases oracle (GetAllScheduledMessages store "pending" "") x x
        (Or.inl rfl) with hsw | hsw
      · have hxmem1 : x ∈ checkAndPauseFutureMessages oracle store now := by
          have h2 := storeOne_mem oracle store now x hxmem
          rwa [hsw] at h2
        rw [hsw] at hyval
        rcases deliverFold_inv sender oracle now _ hnd1 x hxmem1 _ hL x (Or.inl rfl) with
          hdf | ⟨_, t, htOK, hdf⟩
        · rw [hyval, hdf]
          exact Or.inl rfl
        · right
          rw [hyval, hdf]
          have hst : (setStatusFields x t.1 t.2.1 t.2.2).Status = t.1 := by
            simp [setStatusFields]
          rw [hst]
          rcases htOK with h3 | h3 | h3 <;> rw [h3]
          · exact Or.inl ⟨hp, Or.inl rfl⟩
          · exact Or.inl ⟨hp, Or.inr (Or.inl rfl)⟩
          · exact Or.inl ⟨hp, Or.inr (Or.inr (Or.inr rfl))⟩
      · have hxmem1 : pausedOf x ∈ checkAndPauseFutureMessages oracle store now := by
          have h2 := storeOne_mem oracle store now x hxmem
          rwa [hsw] at h2
        rw [hsw] at hyval
        rcases deliverFold_inv sender oracle now _ hnd1 (pausedOf x) hxmem1 _ hL
          (pausedOf x) (Or.inl rfl) with hdf | ⟨hcon, _⟩
        · rw [hyval, hdf]
          right
          exact Or.inl ⟨hp, Or.inr (Or.inl (pausedOf_fields x).1)⟩
        · rw [(pausedOf_fields x).1] at hcon
          exact absurd hcon (by decide)
    · have hsw : sweepFold oracle (GetAllScheduledMessages store "pending" "") x = x :=
        sweepFold_skip oracle store hnd x hxmem (Or.inl hp) _
          fun m hm => (mem_getAllPending store m).mp hm
      have hxmem1 : x ∈ checkAndPauseFutureMessages oracle store now := by
        have h2 := storeOne_mem oracle store now x hxmem
        rwa [hsw] at h2
      rw [hsw] at hyval
      rcases deliverFold_inv sender oracle now _ hnd1 x hxmem1 _ hL x (Or.inl rfl) with
        hdf | ⟨hcon, _⟩
      · rw [hyval, hdf]
        exact Or.inl rfl
      · exact absurd hcon hp
  · intro id store2 hok i x y hx hy
    obtain ⟨msg, hfind, hps, h3⟩ := cancel_ok_shape store id store2 hok
    obtain ⟨hmsgmem, hmsgid⟩ := getScheduledMessage_found hfind
    rw [h3, updateStatus_getElem, hx] at hy
    simp only [Option.map] at hy
    have hyval := (Option.some.injEq _ _).mp hy.symm
    by_cases hid : x.ID = id
    · rw [if_pos hid] at hyval
      have hxmsg : x = msg :=
        eq_of_mem_of_id_eq hnd (List.getElem?_mem hx) hmsgmem (hid.trans hmsgid.symm)
      right
      rw [hyval]
      have hst : (setStatusFields x "cancelled" none (some "Cancelled by user")).Status =
          "cancelled" := by
        simp [setStatusFields]
      rw [hst, hxmsg]
      rcases hps with h4 | h4
      · exact Or.inl ⟨h4, Or.inr (Or.inr (Or.inl rfl))⟩
      · exact Or.inr ⟨h4, Or.inr rfl⟩
    · rw [if_neg hid] at hyval
      rw [hyval]
      exact Or.inl rfl
  · intro id action store2 hok i x y hx hy
    obtain ⟨msg, hfind, hshape⟩ := patch_ok_shape store id action store2 hok
    obtain ⟨hmsgmem, hmsgid⟩ := getScheduledMessage_found hfind
    rcases hshape with ⟨_, hst, h3⟩ | ⟨_, hst, h3⟩ <;>
      rw [h3, updateStatus_getElem, hx] at hy <;>
      simp only [Option.map] at hy <;>
      have hyval := (Option.some.injEq _ _).mp hy.symm
    · by_cases hid : x.ID = id
      · rw [if_pos hid] at hyval
        have hxmsg : x = msg :=
          eq_of_mem_of_id_eq hnd (List.getElem?_mem hx) hmsgmem (hid.trans hmsgid.symm)
        right
        rw [hyval]
        have hss : (setStatusFields x "paused" none (some "Paused by user")).Status =
            "paused" := by
          simp [setStatusFields]
        rw [hss, hxmsg, hst]
        exact Or.inl ⟨rfl, Or.inr (Or.inl rfl)⟩
      · rw [if_neg hid] at hyval
        rw [hyval]
        exact Or.inl rfl
    · by_cases hid : x.ID = id
      · rw [if_pos hid] at hyval
        have hxmsg : x = msg :=
          eq_of_mem_of_id_eq hnd (List.getElem?_mem hx) hmsgmem (hid.trans hmsgid.symm)
        right
        rw [hyval]
        have hss : (setStatusFields x "pending" none none).Status = "pending" := by
          simp [setStatusFields]
        rw [hss, hxmsg, hst]
        exact Or.inr ⟨rfl, Or.inl rfl⟩
      · rw [if_neg hid] at hyval
        rw [hyval]
        exact Or.inl rfl

/-- C1 witness: cancelling the single pending row of a one-row store moves
its status along the pending-to-cancelled edge. -/
theorem C1_state_machine_witness :
    (setStatusFields ⟨"a", "r", "m", 1, 0, 0, false, "pending", none, none⟩ "cancelled"
        none (some "Cancelled by user")).Status =
      (⟨"a", "r", "m", 1, 0, 0, false, "pending", none, none⟩ : ScheduledMessage).Status ∨
    allowedEdge (⟨"a", "r", "m", 1, 0, 0, false, "pending", none, none⟩ :
        ScheduledMessage).Status
      (setStatusFields ⟨"a", "r", "m", 1, 0, 0, false, "pending", none, none⟩ "cancelled"
        none (some "Cancelled by user")).Status :=
  (C1_state_machine [⟨"a", "r", "m", 1, 0, 0, false, "pending", none, none⟩]
      (by decide)).2.2.1 "a"
    (UpdateMessageStatus [⟨"a", "r", "m", 1, 0, 0, false, "pending", none, none⟩] "a"
      "cancelled" none (some "Cancelled by user")) rfl 0
    ⟨"a", "r", "m", 1, 0, 0, false, "pending", none, none⟩
    (setStatusFields ⟨"a", "r", "m", 1, 0, 0, false, "pending", none, none⟩ "cancelled"
      none (some "Cancelled by user")) rfl rfl

end WhatsappScheduler
